import Mathlib

/-!
# Verification of the speedo gauge chart (src/speedo/speedometer.py)

Shallow embedding of the numeric and styling core of `speedo.speedometer`.
Numeric values (value domain, angles, alphas) are modelled exactly over `ℚ`;
the Python floats of the source carry out the same field arithmetic.  The
rendering collaborator (matplotlib) is out of scope: a drawn wedge is
modelled by the data the source passes to it (its angular span, facecolor,
alpha and hatch), the needle primitive by the list of its polygon vertices
in `ℝ × ℝ` (the vertex list produced by `ax.arrow` is supplied by matplotlib,
so `Speedometer.init` takes it as a parameter and `update_arrow_position`
transforms it exactly as the source does, by the rotation matrix `_rotate`).
Python runtime errors (ZeroDivisionError, TypeError, ValueError, IndexError)
are modelled by `Except Err`.  Hatch strings: matplotlib draws no hatching
for both `None` and the empty hatch string, so both are modelled as `none`;
a non-empty hatch pattern is `some s`.
-/

namespace Speedo

/-- Python runtime errors that the modelled code paths can raise. -/
inductive Err where
  | valueError
  | typeError
  | zeroDivision
  | indexError
deriving DecidableEq, Repr

/-- A Python label value as it can appear in `self.labels`: an `int`, a
`float` (here an exact rational) or a string. -/
inductive PyLabel where
  | int (n : ℤ)
  | float (q : ℚ)
  | str (s : String)
deriving DecidableEq, Repr

/-- Whether a Python value has type `int` (the guard `type(label) == int`
on line 240 of the source). -/
def PyLabel.isInt : PyLabel → Bool
  | .int _ => true
  | _ => false

/-- `np.linspace(a, b, num, endpoint=True)`: `num` evenly spaced samples of
`[a, b]` including both endpoints.  For `num = 1` numpy returns `[a]`, which
the formula also yields because `ℚ` division by `0` is `0`. -/
def linspace (a b : ℚ) (num : ℕ) : List ℚ :=
  (List.range num).map (fun (i : ℕ) => a + (i : ℚ) * (b - a) / ((num : ℚ) - 1))

/-- `degree_range(n, start, end)` (speedometer.py lines 9-17): the `n`
consecutive pairs of the `n+1` breakpoints `linspace start end_ (n+1)`
(`start_` is the array without its last entry, `end_` without its first),
together with the midpoint `start_ + (end_ - start_)/2` of each pair. -/
def degree_range (n : ℕ) (start : ℚ) (end_ : ℚ) : List (ℚ × ℚ) × List ℚ :=
  let pts := linspace start end_ (n + 1)
  let pairs := (pts.take n).zip (pts.drop 1)
  (pairs, pairs.map (fun p => p.1 + (p.2 - p.1) / 2))

/-- `np.argmin`: index of the first occurrence of the minimum (`0` on the
empty array, where numpy instead raises; callers guard for that). -/
def argmin : List ℚ → ℕ
  | [] => 0
  | [_] => 0
  | x :: y :: rest =>
    let j := argmin (y :: rest)
    if (y :: rest).getD j 0 < x then j + 1 else 0

/-- Python list indexing `l[i]` with a (possibly negative) integer index:
`-1` is the last element; out of range is an IndexError (`none`). -/
def pyGet (l : List ℚ) (i : ℤ) : Option ℚ :=
  let j : ℤ := if i < 0 then (l.length : ℤ) + i else i
  if 0 ≤ j ∧ j < (l.length : ℤ) then some (l.getD j.toNat 0) else none

/-- The constructor arguments of `Speedometer` that feed the value-to-angle
and styling logic.  Purely visual scalars (center, radius, width_ratio,
linewidths, fonts, offsets, title/annotation styling) only get stored and
forwarded to matplotlib; they are omitted. -/
structure Config where
  start_value : ℚ
  end_value : ℚ
  value : ℚ
  colors : List String
  segments_per_color : ℕ
  start_angle : ℚ
  end_angle : ℚ
  fade_alpha : ℚ
  snap_to_pos : Bool
  unit : String
  draw_labels : Bool
  labels : Option (List PyLabel)
  fade_hatch : Option String
deriving DecidableEq, Repr

/-- One wedge primitive, by the styling data the source passes to
`matplotlib.patches.Wedge`: angular span, facecolor (`none` is the
transparent `facecolor='None'` of the outline wedges), alpha and hatch. -/
structure Wedge where
  theta1 : ℚ
  theta2 : ℚ
  facecolor : Option String
  alpha : ℚ
  hatch : Option String
deriving DecidableEq, Repr

/-- `np.repeat(colors, segments_per_color)` (line 186): every color repeated
`segments_per_color` times, in order. -/
def colors_expanded (c : Config) : List String :=
  c.colors.flatMap (List.replicate c.segments_per_color)

/-- `N = segments_per_color * n_colors`, the number of wedge segments. -/
def nSegs (c : Config) : ℕ :=
  c.segments_per_color * c.colors.length

/-- `self.midpoint_values` (line 187): `N` evenly spaced samples of the
value range, endpoints included. -/
def midpoint_values (c : Config) : List ℚ :=
  linspace c.start_value c.end_value (nSegs c)

/-- `self.edge_values` (line 188): the `N+1` segment boundary values. -/
def edge_values (c : Config) : List ℚ :=
  linspace c.start_value c.end_value (nSegs c + 1)

/-- `self.angle_range` (line 204): the `N` (start angle, end angle) pairs. -/
def angle_range (c : Config) : List (ℚ × ℚ) :=
  (degree_range (nSegs c) c.start_angle c.end_angle).1

/-- `self.midpoints` (line 204): the `N` angular midpoints. -/
def midpoints (c : Config) : List ℚ :=
  (degree_range (nSegs c) c.start_angle c.end_angle).2

/-- `self.annotation_angles` (line 205): the first angle of every pair,
then the second angle of the last pair. -/
def annotation_angles (c : Config) : List ℚ :=
  (angle_range c).map Prod.fst ++
    (match (angle_range c).getLast? with
     | some p => [p.2]
     | none => [])

/-- `self.arrow_index` (lines 190, 315): `np.argmin(abs(midpoint_values - value))`. -/
def arrow_index (c : Config) (v : ℚ) : ℕ :=
  argmin ((midpoint_values c).map (fun m => |m - v|))

/-- `self.arrow_value` (lines 191, 316): `midpoint_values[arrow_index]`. -/
def arrow_value (c : Config) (v : ℚ) : ℚ :=
  (midpoint_values c).getD (arrow_index c v) 0

/-- The filled wedge of one segment (lines 210-219): faded
(`alpha = fade_alpha`, `hatch = fade_hatch`) when `arrow_value <= val` for
the boundary value `val` zipped with the segment, solid (`alpha = 1`,
`hatch = None`) otherwise.  `acv` is one zip item
`((angle pair, color), boundary value)`. -/
def styled_wedge (c : Config) (av : ℚ) (acv : ((ℚ × ℚ) × String) × ℚ) : Wedge :=
  if av ≤ acv.2 then
    ⟨acv.1.1.1, acv.1.1.2, some acv.1.2, c.fade_alpha, c.fade_hatch⟩
  else
    ⟨acv.1.1.1, acv.1.1.2, some acv.1.2, 1, none⟩

/-- The second, outline-only wedge of one segment (line 221):
`facecolor='None'`, full alpha, no hatch. -/
def outline_wedge (acv : ((ℚ × ℚ) × String) × ℚ) : Wedge :=
  ⟨acv.1.1.1, acv.1.1.2, none, 1, none⟩

/-- The construction loop over
`zip(angle_range, colors, edge_values[-2::-1])` (lines 209-221), appending
the styled wedge and the outline wedge of every segment.
`edge_values[-2::-1]` (from the second-to-last entry down to the first) is
`edge_values.reverse.drop 1`. -/
def build_patches (c : Config) (av : ℚ) : List Wedge :=
  (((angle_range c).zip (colors_expanded c)).zip ((edge_values c).reverse.drop 1)).flatMap
    (fun acv => [styled_wedge c av acv, outline_wedge acv])

/-- Default labels (lines 193-197): `N+1` empty strings, then every
`segments_per_color`-th position (indices `0, spc, 2*spc, …, N`) overwritten
with the `n_colors + 1` floats `linspace(start_value, end_value, n_colors+1)`. -/
def default_labels (c : Config) : List PyLabel :=
  (List.range (nSegs c + 1)).map (fun i =>
    if i % c.segments_per_color = 0 then
      match (linspace c.start_value c.end_value (c.colors.length + 1)).get? (i / c.segments_per_color) with
      | some q => .float q
      | none => .str ""
    else .str "")

/-- The label drawing loop (lines 226-249) over
`zip(annotation_angles, labels[-1::-1])`: a label of Python type `int`
reaches `label[-2:]` (line 241) and raises a TypeError (ints are not
subscriptable); any other label is drawn verbatim (the `.0`-stripping
branch is unreachable for non-ints).  The result is the list of
(angle, label) text primitives. -/
def render_labels : List (ℚ × PyLabel) → Except Err (List (ℚ × PyLabel))
  | [] => .ok []
  | (_, .int _) :: _ => .error .typeError
  | (a, l) :: rest => (render_labels rest).map (fun ts => (a, l) :: ts)

/-- `set_arrow_angle` (lines 284-290).  Snap mode:
`midpoints[-1::-1][arrow_index - len(colors)]` (a negative Python index into
the reversed midpoints).  Continuous mode:
`end_angle - (value - start_value) / val_range * deg_range`, a
ZeroDivisionError when `val_range = end_value - start_value` is zero. -/
def set_arrow_angle (c : Config) (v : ℚ) (idx : ℕ) : Except Err ℚ :=
  if c.snap_to_pos then
    match pyGet (midpoints c).reverse ((idx : ℤ) - ((colors_expanded c).length : ℤ)) with
    | some a => .ok a
    | none => .error .indexError
  else if c.end_value - c.start_value = 0 then .error .zeroDivision
  else .ok (c.end_angle - (v - c.start_value) / (c.end_value - c.start_value) * (c.end_angle - c.start_angle))

/-- The post-construction state of a `Speedometer`: the mutable fields of
the object together with its drawn primitives.  `annot` is the bottom
annotation text `f'{value}{unit}'`, modelled as the pair (shown value,
unit suffix); `arrow_xy` is the needle polygon (`self.arrow.get_xy()`). -/
@[ext]
structure SpeedoState where
  value : ℚ
  arrow_index : ℕ
  arrow_value : ℚ
  arrow_angle : ℚ
  patches : List Wedge
  label_texts : List (ℚ × PyLabel)
  annot : ℚ × String
  arrow_xy : List (ℝ × ℝ)

/-- `Speedometer.__init__` (lines 69-278), value/styling core, in source
order: `np.argmin` over `abs(midpoint_values - value)` (a ValueError on an
empty array, i.e. when `N = 0`); label defaulting; wedge construction; the
label drawing loop (only when `draw_labels`); `set_arrow_angle`; then the
needle (whose polygon `xy0` matplotlib produces) and the annotation.  The
first error raised aborts construction. -/
def Speedometer.init (c : Config) (xy0 : List (ℝ × ℝ)) : Except Err SpeedoState :=
  if midpoint_values c = [] then .error .valueError
  else
    match (if c.draw_labels then
             render_labels ((annotation_angles c).zip ((c.labels.getD (default_labels c)).reverse))
           else .ok []) with
    | .error e => .error e
    | .ok texts =>
      match set_arrow_angle c c.value (arrow_index c c.value) with
      | .error e => .error e
      | .ok a =>
        .ok ⟨c.value, arrow_index c c.value, arrow_value c c.value, a,
             build_patches c (arrow_value c c.value), texts, (c.value, c.unit), xy0⟩

/-- The restyling `update_wedges` (lines 302-310) applies to the patch at
position `k` of `self.patches`: the zip of `edge_values < value` with
`self.patches[-2::-2]` pairs boolean index `i` with the styled wedge at
even position `2*(N-1-i)`, so the styled wedge at even position `k` is
restyled by `edge_values[N - 1 - k/2] < value` (solid: `set_alpha(1)`,
`set_hatch('')`; faded: `set_alpha(fade_alpha)`, `set_hatch(fade_hatch)`);
odd positions (the outline wedges) are untouched. -/
def restyled (c : Config) (v : ℚ) (k : ℕ) (p : Wedge) : Wedge :=
  if k % 2 = 0 then
    if (edge_values c).getD (nSegs c - 1 - k / 2) 0 < v then
      ⟨p.theta1, p.theta2, p.facecolor, 1, none⟩
    else
      ⟨p.theta1, p.theta2, p.facecolor, c.fade_alpha, c.fade_hatch⟩
  else p

/-- `update_wedges` over the whole patch list, tracking list position. -/
def update_wedges_go (c : Config) (v : ℚ) : ℕ → List Wedge → List Wedge
  | _, [] => []
  | k, p :: rest => restyled c v k p :: update_wedges_go c v (k + 1) rest

/-- `update_wedges` (lines 302-310). -/
def update_wedges (c : Config) (v : ℚ) (patches : List Wedge) : List Wedge :=
  update_wedges_go c v 0 patches

/-- Degrees to radians (`np.deg2rad`). -/
noncomputable def deg2rad (d : ℝ) : ℝ :=
  d * Real.pi / 180

/-- `Speedometer._rotate` (lines 292-300) applied to one vertex: the 2D
rotation matrix `[[cos θ, -sin θ], [sin θ, cos θ]]` times the vector. -/
noncomputable def rotatePt (theta : ℝ) (p : ℝ × ℝ) : ℝ × ℝ :=
  (Real.cos theta * p.1 - Real.sin theta * p.2,
   Real.sin theta * p.1 + Real.cos theta * p.2)

/-- `update_arrow_position(value)` (lines 312-325): overwrite `value`,
recompute `arrow_index`/`arrow_value` (`np.argmin`, a ValueError when
`N = 0`), recompute `arrow_angle` via `set_arrow_angle`, rotate the needle
polygon in place by the angle delta (in radians), rewrite the annotation
to `f'{value}{unit}'`, and restyle the wedges via `update_wedges`. -/
noncomputable def Speedometer.update_arrow_position (c : Config) (v : ℚ) (s : SpeedoState) :
    Except Err SpeedoState :=
  if midpoint_values c = [] then .error .valueError
  else
    match set_arrow_angle c v (arrow_index c v) with
    | .error e => .error e
    | .ok a =>
      .ok ⟨v, arrow_index c v, arrow_value c v, a,
           update_wedges c v s.patches, s.label_texts, (v, c.unit),
           s.arrow_xy.map (rotatePt (deg2rad ((a - s.arrow_angle : ℚ) : ℝ)))⟩

/-- The needle angle of a construction or update outcome (`none` when the
call raised). -/
def getAngle : Except Err SpeedoState → Option ℚ
  | .ok s => some s.arrow_angle
  | .error _ => none

/-! ## Spec-side definitions

Definitions below follow the specification's wording, to be compared with
the code-derived definitions above. -/

/-- The spec's `value_to_angle` linear interpolation formula (section 4.1):
`angle = end_angle - (value - start_value) / (end_value - start_value) *
(end_angle - start_angle)`. -/
def value_to_angle (c : Config) (v : ℚ) : ℚ :=
  c.end_angle - (v - c.start_value) / (c.end_value - c.start_value) * (c.end_angle - c.start_angle)

/-- The spec's characterisation of `nearest_segment`/`np.argmin`: a valid
index attaining the minimum, with ties broken by the lowest index. -/
def isArgmin (l : List ℚ) (i : ℕ) : Prop :=
  i < l.length ∧ (∀ j, j < l.length → l.getD i 0 ≤ l.getD j 0) ∧
    (∀ j, j < i → l.getD i 0 < l.getD j 0)

/-! ## Concrete test fixtures

Small configurations used by the concrete scenarios, counterexamples and
witnesses. -/

/-- The claim scenario's continuous-mode configuration: domain `[0, 200]`,
dial from `-30°` to `210°`, needle at `100`, one single segment. -/
def cfgCont : Config :=
  ⟨0, 200, 100, ["#d7191c"], 1, -30, 210, 1/4, false, "", false, none, none⟩

/-- The construction outcome of `cfgCont` (checked by `init_cfgCont`). -/
def stateCont : SpeedoState :=
  ⟨100, 0, 0, 90, [⟨-30, 210, some "#d7191c", 1/4, none⟩, ⟨-30, 210, none, 1, none⟩],
   [], (100, ""), []⟩

/-- A throwaway drawn state to probe `update_arrow_position` on (the
resulting needle angle does not depend on it). -/
def probeState : SpeedoState := ⟨0, 0, 0, 0, [], [], (0, ""), []⟩

/-- A one-segment configuration over the domain `[0, 10]`: needle value,
needle mode, label options and fade hatch vary per scenario. -/
def smallCfg (v : ℚ) (snap draw : Bool) (labels : Option (List PyLabel))
    (hatch : Option String) : Config :=
  ⟨0, 10, v, ["a"], 1, -30, 210, 1/4, snap, "", draw, labels, hatch⟩

/-- A two-color, one-segment-per-color configuration over `[0, 10]`. -/
def twoCfg (v : ℚ) (snap : Bool) : Config :=
  ⟨0, 10, v, ["a", "b"], 1, -30, 210, 1/4, snap, "", false, none, none⟩

/-- A one-color, two-segments-per-color configuration over `[0, 10]`. -/
def spcCfg (v : ℚ) : Config :=
  ⟨0, 10, v, ["a"], 2, -30, 210, 1/4, false, "", false, none, none⟩

/-- A degenerate configuration with `start_value = end_value = 5`. -/
def degCfg (snap : Bool) : Config :=
  ⟨5, 5, 5, ["a"], 1, -30, 210, 1/4, snap, "", false, none, none⟩

/-- Construction outcome of `smallCfg 0 false false none (some "xx")`:
the single boundary value `0` equals `arrow_value`, so the wedge fades. -/
def stateEq : SpeedoState :=
  ⟨0, 0, 0, 210, [⟨-30, 210, some "a", 1/4, some "xx"⟩, ⟨-30, 210, none, 1, none⟩],
   [], (0, ""), []⟩

/-- Construction outcome of `twoCfg 10 false`: both boundaries lie strictly
below `arrow_value = 10`, so both wedges render solid. -/
def stateStrict : SpeedoState :=
  ⟨10, 1, 10, -30,
   [⟨-30, 90, some "a", 1, none⟩, ⟨-30, 90, none, 1, none⟩,
    ⟨90, 210, some "b", 1, none⟩, ⟨90, 210, none, 1, none⟩],
   [], (10, ""), []⟩

/-- Construction outcome of `spcCfg 0`: both wedges fade. -/
def state3 : SpeedoState :=
  ⟨0, 0, 0, 210,
   [⟨-30, 90, some "a", 1/4, none⟩, ⟨-30, 90, none, 1, none⟩,
    ⟨90, 210, some "a", 1/4, none⟩, ⟨90, 210, none, 1, none⟩],
   [], (0, ""), []⟩

/-- Outcome of `update_arrow_position (spcCfg 0) 4 state3`: the low segment
turns solid because its boundary `0` is below the raw value `4`, although
`arrow_value` snaps back to `0`. -/
def state3u : SpeedoState :=
  ⟨4, 0, 0, 114,
   [⟨-30, 90, some "a", 1/4, none⟩, ⟨-30, 90, none, 1, none⟩,
    ⟨90, 210, some "a", 1, none⟩, ⟨90, 210, none, 1, none⟩],
   [], (4, ""), []⟩

/-- Construction outcome of `degCfg true`: snap mode succeeds although
`start_value = end_value`. -/
def stateSnapDeg : SpeedoState :=
  ⟨5, 0, 5, 90, [⟨-30, 210, some "a", 1/4, none⟩, ⟨-30, 210, none, 1, none⟩],
   [], (5, ""), []⟩

/-- Outcome of `update_arrow_position (twoCfg 0 true) 7 probeState`: the
needle snaps to the angular midpoint `30` of the segment nearest value 7. -/
def stateSnap2u : SpeedoState := ⟨7, 1, 10, 30, [], [], (7, ""), []⟩

/-- Custom labels with an `int` entry that the label loop never reaches:
the three labels are reversed and zipped against only two annotation
angles, so the `int` at index 0 falls off the end. -/
def intLabels : List PyLabel := [.int 5, .str "a", .str "b"]

/-- Construction outcome of `smallCfg 0 false true (some intLabels) none`:
construction succeeds, drawing the last two labels. -/
def state10 : SpeedoState :=
  ⟨0, 0, 0, 210, [⟨-30, 210, some "a", 1/4, none⟩, ⟨-30, 210, none, 1, none⟩],
   [(-30, .str "b"), (210, .str "a")], (0, ""), []⟩

/-- Construction outcome of `smallCfg 0 false true none none` (default
labels): the two generated float labels pass through verbatim. -/
def state10c : SpeedoState :=
  ⟨0, 0, 0, 210, [⟨-30, 210, some "a", 1/4, none⟩, ⟨-30, 210, none, 1, none⟩],
   [(-30, .float 10), (210, .float 0)], (0, ""), []⟩

/-! ## List and linspace infrastructure -/

theorem length_linspace (a b : ℚ) (num : ℕ) : (linspace a b num).length = num := by
  simp only [linspace, List.length_map, List.length_range]

theorem linspace_getD (a b : ℚ) {num i : ℕ} (h : i < num) :
    (linspace a b num).getD i 0 = a + (i : ℚ) * (b - a) / ((num : ℚ) - 1) := by
  rw [List.getD_eq_getElem _ _ (by simpa [length_linspace])]
  simp only [linspace, List.getElem_map, List.getElem_range]

theorem linspace_ne_nil (a b : ℚ) {num : ℕ} (h : 0 < num) : linspace a b num ≠ [] := by
  intro hnil
  have := length_linspace a b num
  rw [hnil] at this
  simp at this
  omega

theorem length_degree_range_fst (n : ℕ) (a b : ℚ) :
    (degree_range n a b).1.length = n := by
  simp [degree_range, length_linspace]

theorem length_degree_range_snd (n : ℕ) (a b : ℚ) :
    (degree_range n a b).2.length = n := by
  simp [degree_range, length_linspace]

theorem degree_range_fst_getD (n : ℕ) (a b : ℚ) {i : ℕ} (h : i < n) :
    (degree_range n a b).1.getD i (0, 0) =
      ((linspace a b (n + 1)).getD i 0, (linspace a b (n + 1)).getD (i + 1) 0) := by
  have hlen : (degree_range n a b).1.length = n := length_degree_range_fst n a b
  have hpts : (linspace a b (n + 1)).length = n + 1 := length_linspace a b (n + 1)
  rw [List.getD_eq_getElem _ _ (by omega)]
  simp only [degree_range]
  rw [List.getElem_zip, List.getElem_take, List.getElem_drop]
  rw [List.getD_eq_getElem _ _ (by omega), List.getD_eq_getElem _ _ (by omega)]
  simp [Nat.add_comm]

theorem degree_range_snd_getD (n : ℕ) (a b : ℚ) {i : ℕ} (h : i < n) :
    (degree_range n a b).2.getD i 0 =
      ((degree_range n a b).1.getD i (0, 0)).1 +
        (((degree_range n a b).1.getD i (0, 0)).2 - ((degree_range n a b).1.getD i (0, 0)).1) / 2 := by
  have hlen : (degree_range n a b).1.length = n := length_degree_range_fst n a b
  have hmap : (degree_range n a b).2 =
      (degree_range n a b).1.map (fun p => p.1 + (p.2 - p.1) / 2) := rfl
  rw [hmap, List.getD_eq_getElem _ _ (by simp only [List.length_map]; omega),
    List.getElem_map, List.getD_eq_getElem _ _ (by omega)]

theorem flatMap_pair_length {α β : Type _} (l : List α) (f g : α → β) :
    (l.flatMap (fun x => [f x, g x])).length = 2 * l.length := by
  induction l with
  | nil => simp
  | cons x xs ih =>
    simp only [List.flatMap_cons, List.cons_append, List.nil_append, List.length_cons, ih]
    omega

theorem flatMap_pair_getD {α β : Type _} (l : List α) (f g : α → β) (d : β) (dz : α)
    {j : ℕ} (hj : j < l.length) :
    (l.flatMap (fun x => [f x, g x])).getD (2 * j) d = f (l.getD j dz) ∧
    (l.flatMap (fun x => [f x, g x])).getD (2 * j + 1) d = g (l.getD j dz) := by
  induction l generalizing j with
  | nil => simp at hj
  | cons x xs ih =>
    cases j with
    | zero => simp
    | succ k =>
      have hk : k < xs.length := by simpa using hj
      have h2 : 2 * (k + 1) = (2 * k + 1) + 1 := by omega
      constructor
      · rw [h2]
        simpa using (ih hk).1
      · rw [h2]
        simpa using (ih hk).2

theorem length_colors_expanded (c : Config) : (colors_expanded c).length = nSegs c := by
  simp only [colors_expanded, nSegs, List.length_flatMap]
  induction c.colors with
  | nil => simp
  | cons x xs ih =>
    simp only [List.map_cons, List.sum_cons, Function.comp_apply, List.length_replicate, ih,
      List.length_cons]
    ring

/-! ## argmin: first index of the minimum -/

theorem argmin_cons_cons (x y : ℚ) (rest : List ℚ) :
    argmin (x :: y :: rest) =
      if (y :: rest).getD (argmin (y :: rest)) 0 < x then argmin (y :: rest) + 1 else 0 :=
  rfl

theorem argmin_lt_length : ∀ (l : List ℚ), l ≠ [] → argmin l < l.length
  | [x], _ => by simp [argmin]
  | x :: y :: rest, _ => by
    have ih := argmin_lt_length (y :: rest) (by simp)
    rw [argmin_cons_cons]
    by_cases h : (y :: rest).getD (argmin (y :: rest)) 0 < x
    · rw [if_pos h]
      simp only [List.length_cons] at ih ⊢
      omega
    · rw [if_neg h]
      simp

theorem argmin_min : ∀ (l : List ℚ) (j : ℕ), j < l.length →
    l.getD (argmin l) 0 ≤ l.getD j 0
  | [x], j, hj => by
    have hj0 : j = 0 := by simpa using Nat.lt_one_iff.mp (by simpa using hj)
    subst hj0
    simp [argmin]
  | x :: y :: rest, j, hj => by
    have ih := argmin_min (y :: rest)
    rw [argmin_cons_cons]
    by_cases h : (y :: rest).getD (argmin (y :: rest)) 0 < x
    · rw [if_pos h]
      cases j with
      | zero => simpa [List.getD_cons_succ, List.getD_cons_zero] using le_of_lt h
      | succ k =>
        have hk : k < (y :: rest).length := by simpa using hj
        simpa [List.getD_cons_succ] using ih k hk
    · rw [if_neg h]
      cases j with
      | zero => simp
      | succ k =>
        have hk : k < (y :: rest).length := by simpa using hj
        have hx : x ≤ (y :: rest).getD (argmin (y :: rest)) 0 := le_of_not_lt h
        simpa [List.getD_cons_zero, List.getD_cons_succ] using le_trans hx (ih k hk)

theorem argmin_strict_before : ∀ (l : List ℚ) (j : ℕ), j < argmin l →
    l.getD (argmin l) 0 < l.getD j 0
  | [], j, hj => by simp [argmin] at hj
  | [x], j, hj => by simp [argmin] at hj
  | x :: y :: rest, j, hj => by
    have ih := argmin_strict_before (y :: rest)
    rw [argmin_cons_cons] at hj ⊢
    by_cases h : (y :: rest).getD (argmin (y :: rest)) 0 < x
    · rw [if_pos h] at hj ⊢
      cases j with
      | zero => simpa [List.getD_cons_succ, List.getD_cons_zero] using h
      | succ k =>
        have hk : k < argmin (y :: rest) := by omega
        simpa [List.getD_cons_succ] using ih k hk
    · rw [if_neg h] at hj
      omega

theorem isArgmin_eq_argmin (l : List ℚ) (i : ℕ) (h : isArgmin l i) : i = argmin l := by
  obtain ⟨hi, hmin, hfirst⟩ := h
  have hne : l ≠ [] := by
    intro hnil
    rw [hnil] at hi
    simp at hi
  have hA : argmin l < l.length := argmin_lt_length l hne
  rcases Nat.lt_trichotomy i (argmin l) with hlt | heq | hgt
  · have h1 := argmin_strict_before l i hlt
    have h2 := hmin (argmin l) hA
    exact absurd h2 (not_le_of_lt h1)
  · exact heq
  · have h1 := hfirst (argmin l) hgt
    have h2 := argmin_min l i hi
    exact absurd h2 (not_le_of_lt h1)

theorem arrow_index_lt (c : Config) (v : ℚ) (hne : midpoint_values c ≠ []) :
    arrow_index c v < (midpoint_values c).length := by
  have := argmin_lt_length ((midpoint_values c).map (fun m => |m - v|)) (by simpa using hne)
  simpa [arrow_index] using this

/-! ## pyGet and set_arrow_angle -/

theorem pyGet_reverse_sub (l : List ℚ) (idx : ℕ) (hidx : idx < l.length) :
    pyGet l.reverse ((idx : ℤ) - (l.length : ℤ)) = some (l.getD (l.length - 1 - idx) 0) := by
  have hrev : l.reverse.length = l.length := List.length_reverse l
  have hneg : ((idx : ℤ) - (l.length : ℤ)) < 0 := by omega
  have hj : (if ((idx : ℤ) - (l.length : ℤ)) < 0 then
      (l.reverse.length : ℤ) + ((idx : ℤ) - (l.length : ℤ)) else ((idx : ℤ) - (l.length : ℤ))) = (idx : ℤ) := by
    rw [if_pos hneg]
    omega
  unfold pyGet
  rw [hj]
  rw [if_pos (by constructor <;> omega)]
  congr 1
  rw [Int.toNat_ofNat]
  rw [List.getD_eq_getElem _ _ (by omega), List.getD_eq_getElem _ _ (by omega)]
  rw [List.getElem_reverse]

theorem length_midpoints (c : Config) : (midpoints c).length = nSegs c :=
  length_degree_range_snd _ _ _

theorem length_midpoint_values (c : Config) : (midpoint_values c).length = nSegs c :=
  length_linspace _ _ _

theorem length_edge_values (c : Config) : (edge_values c).length = nSegs c + 1 :=
  length_linspace _ _ _

theorem set_arrow_angle_snap (c : Config) (v : ℚ) (idx : ℕ)
    (hsnap : c.snap_to_pos = true) (hidx : idx < nSegs c) :
    set_arrow_angle c v idx = .ok ((midpoints c).getD (nSegs c - 1 - idx) 0) := by
  unfold set_arrow_angle
  rw [hsnap, if_pos rfl, length_colors_expanded]
  have h := pyGet_reverse_sub (midpoints c) idx (by rw [length_midpoints]; exact hidx)
  rw [length_midpoints] at h
  rw [h]

theorem set_arrow_angle_cont (c : Config) (v : ℚ) (idx : ℕ)
    (hsnap : c.snap_to_pos = false) (hne : c.end_value - c.start_value ≠ 0) :
    set_arrow_angle c v idx =
      .ok (c.end_angle - (v - c.start_value) / (c.end_value - c.start_value) * (c.end_angle - c.start_angle)) := by
  unfold set_arrow_angle
  rw [hsnap]
  simp only [Bool.false_eq_true, if_false]
  rw [if_neg hne]

theorem set_arrow_angle_cont_ne (c : Config) (v : ℚ) (idx : ℕ) (a : ℚ)
    (hsnap : c.snap_to_pos = false) (h : set_arrow_angle c v idx = .ok a) :
    c.end_value - c.start_value ≠ 0 := by
  intro h0
  unfold set_arrow_angle at h
  rw [hsnap] at h
  simp only [Bool.false_eq_true, if_false] at h
  rw [if_pos h0] at h
  cases h

theorem set_arrow_angle_zero (c : Config) (v : ℚ) (idx : ℕ)
    (hsnap : c.snap_to_pos = false) (h0 : c.end_value - c.start_value = 0) :
    set_arrow_angle c v idx = .error Err.zeroDivision := by
  unfold set_arrow_angle
  rw [hsnap]
  simp only [Bool.false_eq_true, if_false]
  rw [if_pos h0]

theorem set_arrow_angle_error_ne_typeError (c : Config) (v : ℚ) (idx : ℕ) (e : Err)
    (h : set_arrow_angle c v idx = .error e) : e ≠ Err.typeError := by
  unfold set_arrow_angle at h
  split at h
  · split at h
    · cases h
    · injection h with h'
      subst h'
      intro hc
      cases hc
  · split at h
    · injection h with h'
      subst h'
      intro hc
      cases hc
    · cases h

/-! ## update_wedges -/

theorem update_wedges_go_length (c : Config) (v : ℚ) :
    ∀ (k : ℕ) (l : List Wedge), (update_wedges_go c v k l).length = l.length
  | _, [] => rfl
  | k, _ :: rest => by
    simp only [update_wedges_go, List.length_cons, update_wedges_go_length c v (k + 1) rest]

theorem update_wedges_go_getD (c : Config) (v : ℚ) (d : Wedge) :
    ∀ (l : List Wedge) (k m : ℕ), m < l.length →
      (update_wedges_go c v k l).getD m d = restyled c v (k + m) (l.getD m d)
  | [], _, m, hm => by simp at hm
  | p :: rest, k, 0, _ => by
    simp only [update_wedges_go, List.getD_cons_zero, Nat.add_zero]
  | p :: rest, k, m + 1, hm => by
    have hm' : m < rest.length := by simpa using hm
    simp only [update_wedges_go, List.getD_cons_succ]
    rw [update_wedges_go_getD c v d rest (k + 1) m hm']
    congr 1
    omega

theorem restyled_idem (c : Config) (v : ℚ) (k : ℕ) (p : Wedge) :
    restyled c v k (restyled c v k p) = restyled c v k p := by
  unfold restyled
  split_ifs <;> rfl

theorem update_wedges_go_idem (c : Config) (v : ℚ) :
    ∀ (k : ℕ) (l : List Wedge),
      update_wedges_go c v k (update_wedges_go c v k l) = update_wedges_go c v k l
  | _, [] => rfl
  | k, p :: rest => by
    simp only [update_wedges_go]
    rw [restyled_idem, update_wedges_go_idem c v (k + 1) rest]

theorem update_wedges_idem (c : Config) (v : ℚ) (l : List Wedge) :
    update_wedges c v (update_wedges c v l) = update_wedges c v l :=
  update_wedges_go_idem c v 0 l

theorem update_wedges_getD (c : Config) (v : ℚ) (d : Wedge) (l : List Wedge) (m : ℕ)
    (hm : m < l.length) :
    (update_wedges c v l).getD m d = restyled c v m (l.getD m d) := by
  have := update_wedges_go_getD c v d l 0 m hm
  simpa [update_wedges] using this

/-! ## build_patches -/

theorem build_patches_eq_flatMap (c : Config) (av : ℚ) :
    build_patches c av =
      ((((angle_range c).zip (colors_expanded c)).zip ((edge_values c).reverse.drop 1)).flatMap
        (fun acv => [styled_wedge c av acv, outline_wedge acv])) := rfl

theorem length_angle_range (c : Config) : (angle_range c).length = nSegs c :=
  length_degree_range_fst _ _ _

theorem length_build_zip (c : Config) :
    ((((angle_range c).zip (colors_expanded c)).zip ((edge_values c).reverse.drop 1))).length
      = nSegs c := by
  simp only [List.length_zip, length_angle_range, length_colors_expanded,
    List.length_drop, List.length_reverse, length_edge_values]
  omega

theorem length_build_patches (c : Config) (av : ℚ) :
    (build_patches c av).length = 2 * nSegs c := by
  rw [build_patches_eq_flatMap, flatMap_pair_length, length_build_zip]

theorem edge_rev_drop_getD (c : Config) (j : ℕ) (hj : j < nSegs c) :
    ((edge_values c).reverse.drop 1).getD j 0 = (edge_values c).getD (nSegs c - 1 - j) 0 := by
  have hlen : (edge_values c).length = nSegs c + 1 := length_edge_values c
  have hrev : (edge_values c).reverse.length = nSegs c + 1 := by
    rw [List.length_reverse, hlen]
  rw [List.getD_eq_getElem _ _ (by simp only [List.length_drop, hrev]; omega),
    List.getD_eq_getElem _ _ (by omega)]
  rw [List.getElem_drop, List.getElem_reverse]
  congr 1
  omega

theorem build_patches_getD (c : Config) (av : ℚ) (j : ℕ) (hj : j < nSegs c) :
    (build_patches c av).getD (2 * j) ⟨0, 0, none, 0, none⟩ =
      styled_wedge c av ((((angle_range c).zip (colors_expanded c)).zip
        ((edge_values c).reverse.drop 1)).getD j (((0, 0), ""), 0)) ∧
    (build_patches c av).getD (2 * j + 1) ⟨0, 0, none, 0, none⟩ =
      outline_wedge ((((angle_range c).zip (colors_expanded c)).zip
        ((edge_values c).reverse.drop 1)).getD j (((0, 0), ""), 0)) := by
  rw [build_patches_eq_flatMap]
  exact flatMap_pair_getD _ _ _ _ _ (by rw [length_build_zip]; exact hj)

theorem build_zip_getD_snd (c : Config) (j : ℕ) (hj : j < nSegs c) :
    ((((angle_range c).zip (colors_expanded c)).zip
      ((edge_values c).reverse.drop 1)).getD j (((0, 0), ""), 0)).2 =
      (edge_values c).getD (nSegs c - 1 - j) 0 := by
  have h1 : (angle_range c).length = nSegs c := length_angle_range c
  have h2 : (colors_expanded c).length = nSegs c := length_colors_expanded c
  have h3 : ((edge_values c).reverse.drop 1).length = nSegs c := by
    simp only [List.length_drop, List.length_reverse, length_edge_values]
    omega
  have hz : ((angle_range c).zip (colors_expanded c)).length = nSegs c := by
    rw [List.length_zip, h1, h2]
    omega
  rw [List.getD_eq_getElem _ _ (by rw [List.length_zip, hz, h3]; omega)]
  rw [List.getElem_zip]
  rw [← List.getD_eq_getElem _ (0 : ℚ) (by rw [h3]; exact hj)]
  exact edge_rev_drop_getD c j hj

/-! ## render_labels and default_labels -/

theorem render_labels_error_of_int (l : List (ℚ × PyLabel))
    (h : ∃ p ∈ l, p.2.isInt = true) : render_labels l = .error Err.typeError := by
  induction l with
  | nil => simp at h
  | cons x rest ih =>
    obtain ⟨a, lab⟩ := x
    cases lab with
    | int n => rfl
    | float q =>
      have : ∃ p ∈ rest, p.2.isInt = true := by
        rcases h with ⟨p, hp, hint⟩
        rcases List.mem_cons.mp hp with rfl | hmem
        · simp [PyLabel.isInt] at hint
        · exact ⟨p, hmem, hint⟩
      show (render_labels rest).map _ = _
      rw [ih this]
      rfl
    | str s =>
      have : ∃ p ∈ rest, p.2.isInt = true := by
        rcases h with ⟨p, hp, hint⟩
        rcases List.mem_cons.mp hp with rfl | hmem
        · simp [PyLabel.isInt] at hint
        · exact ⟨p, hmem, hint⟩
      show (render_labels rest).map _ = _
      rw [ih this]
      rfl

theorem render_labels_ok_of_no_int (l : List (ℚ × PyLabel))
    (h : ∀ p ∈ l, p.2.isInt = false) : render_labels l = .ok l := by
  induction l with
  | nil => rfl
  | cons x rest ih =>
    obtain ⟨a, lab⟩ := x
    have hrest : ∀ p ∈ rest, p.2.isInt = false := fun p hp => h p (List.mem_cons_of_mem _ hp)
    cases lab with
    | int n =>
      have := h (a, .int n) (List.mem_cons_self _ _)
      simp [PyLabel.isInt] at this
    | float q =>
      show (render_labels rest).map _ = _
      rw [ih hrest]
      rfl
    | str s =>
      show (render_labels rest).map _ = _
      rw [ih hrest]
      rfl

theorem default_labels_not_int (c : Config) :
    ∀ l ∈ default_labels c, l.isInt = false := by
  intro l hl
  unfold default_labels at hl
  rcases List.mem_map.mp hl with ⟨i, _, rfl⟩
  by_cases h : i % c.segments_per_color = 0
  · rw [if_pos h]
    cases hg : (linspace c.start_value c.end_value (c.colors.length + 1)).get? (i / c.segments_per_color) with
    | none => simp [hg, PyLabel.isInt]
    | some q => simp [hg, PyLabel.isInt]
  · rw [if_neg h]
    rfl

/-! ## Construction and update: shape of a successful outcome -/

theorem Speedometer.init_eq_ok (c : Config) (xy0 : List (ℝ × ℝ)) (texts : List (ℚ × PyLabel)) (a : ℚ)
    (hne : midpoint_values c ≠ [])
    (hl : (if c.draw_labels then
            render_labels ((annotation_angles c).zip ((c.labels.getD (default_labels c)).reverse))
          else .ok []) = .ok texts)
    (ha : set_arrow_angle c c.value (arrow_index c c.value) = .ok a) :
    Speedometer.init c xy0 =
      .ok ⟨c.value, arrow_index c c.value, arrow_value c c.value, a,
           build_patches c (arrow_value c c.value), texts, (c.value, c.unit), xy0⟩ := by
  unfold Speedometer.init
  rw [if_neg hne, hl, ha]

theorem Speedometer.init_ok (c : Config) (xy0 : List (ℝ × ℝ)) (s : SpeedoState)
    (h : Speedometer.init c xy0 = .ok s) :
    midpoint_values c ≠ [] ∧
    set_arrow_angle c c.value (arrow_index c c.value) = .ok s.arrow_angle ∧
    s.value = c.value ∧
    s.arrow_index = arrow_index c c.value ∧
    s.arrow_value = arrow_value c c.value ∧
    s.patches = build_patches c (arrow_value c c.value) ∧
    (if c.draw_labels then
      render_labels ((annotation_angles c).zip ((c.labels.getD (default_labels c)).reverse))
    else .ok []) = .ok s.label_texts ∧
    s.annot = (c.value, c.unit) ∧
    s.arrow_xy = xy0 := by
  unfold Speedometer.init at h
  split at h
  · cases h
  next hne =>
    split at h
    next e heq => cases h
    next texts heq =>
      split at h
      next e heq2 => cases h
      next a heq2 =>
        injection h with h'
        subst h'
        exact ⟨hne, heq2, rfl, rfl, rfl, rfl, heq, rfl, rfl⟩

theorem Speedometer.init_eq_error_labels (c : Config) (xy0 : List (ℝ × ℝ)) (e : Err)
    (hne : midpoint_values c ≠ [])
    (hl : (if c.draw_labels then
            render_labels ((annotation_angles c).zip ((c.labels.getD (default_labels c)).reverse))
          else .ok []) = .error e) :
    Speedometer.init c xy0 = .error e := by
  unfold Speedometer.init
  rw [if_neg hne, hl]

theorem Speedometer.init_eq_error_angle (c : Config) (xy0 : List (ℝ × ℝ))
    (texts : List (ℚ × PyLabel)) (e : Err)
    (hne : midpoint_values c ≠ [])
    (hl : (if c.draw_labels then
            render_labels ((annotation_angles c).zip ((c.labels.getD (default_labels c)).reverse))
          else .ok []) = .ok texts)
    (ha : set_arrow_angle c c.value (arrow_index c c.value) = .error e) :
    Speedometer.init c xy0 = .error e := by
  unfold Speedometer.init
  rw [if_neg hne, hl, ha]

theorem Speedometer.update_eq_ok (c : Config) (v : ℚ) (s : SpeedoState) (a : ℚ)
    (hne : midpoint_values c ≠ [])
    (ha : set_arrow_angle c v (arrow_index c v) = .ok a) :
    Speedometer.update_arrow_position c v s =
      .ok ⟨v, arrow_index c v, arrow_value c v, a,
           update_wedges c v s.patches, s.label_texts, (v, c.unit),
           s.arrow_xy.map (rotatePt (deg2rad ((a - s.arrow_angle : ℚ) : ℝ)))⟩ := by
  unfold Speedometer.update_arrow_position
  rw [if_neg hne, ha]

theorem Speedometer.update_ok (c : Config) (v : ℚ) (s t : SpeedoState)
    (h : Speedometer.update_arrow_position c v s = .ok t) :
    midpoint_values c ≠ [] ∧
    set_arrow_angle c v (arrow_index c v) = .ok t.arrow_angle ∧
    t.value = v ∧
    t.arrow_index = arrow_index c v ∧
    t.arrow_value = arrow_value c v ∧
    t.patches = update_wedges c v s.patches ∧
    t.label_texts = s.label_texts ∧
    t.annot = (v, c.unit) ∧
    t.arrow_xy = s.arrow_xy.map (rotatePt (deg2rad ((t.arrow_angle - s.arrow_angle : ℚ) : ℝ))) := by
  unfold Speedometer.update_arrow_position at h
  split at h
  · cases h
  next hne =>
    split at h
    next e heq => cases h
    next a heq =>
      injection h with h'
      subst h'
      exact ⟨hne, heq, rfl, rfl, rfl, rfl, rfl, rfl, rfl⟩

theorem rotatePt_zero (p : ℝ × ℝ) : rotatePt (deg2rad ((0 : ℚ) : ℝ)) p = p := by
  simp [rotatePt, deg2rad]

/-! ## Evaluating the fixtures -/

theorem cfgCont_mv : midpoint_values cfgCont = [0] := by
  norm_num [midpoint_values, linspace, nSegs, cfgCont, List.range_succ, List.range_zero]

theorem cfgCont_ev : edge_values cfgCont = [0, 200] := by
  norm_num [edge_values, linspace, nSegs, cfgCont, List.range_succ, List.range_zero]

theorem cfgCont_ar : angle_range cfgCont = [(-30, 210)] := by
  norm_num [angle_range, degree_range, linspace, nSegs, cfgCont, List.range_succ, List.range_zero]

theorem cfgCont_ce : colors_expanded cfgCont = ["#d7191c"] := by
  norm_num [colors_expanded, cfgCont]

theorem smallCfg_mv (v : ℚ) (snap draw : Bool) (ls : Option (List PyLabel)) (ha : Option String) :
    midpoint_values (smallCfg v snap draw ls ha) = [0] := by
  norm_num [midpoint_values, linspace, nSegs, smallCfg, List.range_succ, List.range_zero]

theorem smallCfg_ev (v : ℚ) (snap draw : Bool) (ls : Option (List PyLabel)) (ha : Option String) :
    edge_values (smallCfg v snap draw ls ha) = [0, 10] := by
  norm_num [edge_values, linspace, nSegs, smallCfg, List.range_succ, List.range_zero]

theorem smallCfg_ar (v : ℚ) (snap draw : Bool) (ls : Option (List PyLabel)) (ha : Option String) :
    angle_range (smallCfg v snap draw ls ha) = [(-30, 210)] := by
  norm_num [angle_range, degree_range, linspace, nSegs, smallCfg, List.range_succ, List.range_zero]

theorem smallCfg_ce (v : ℚ) (snap draw : Bool) (ls : Option (List PyLabel)) (ha : Option String) :
    colors_expanded (smallCfg v snap draw ls ha) = ["a"] := by
  norm_num [colors_expanded, smallCfg]

theorem smallCfg_aa (v : ℚ) (snap draw : Bool) (ls : Option (List PyLabel)) (ha : Option String) :
    annotation_angles (smallCfg v snap draw ls ha) = [-30, 210] := by
  unfold annotation_angles
  rw [smallCfg_ar]
  rfl

theorem smallCfg_dl (v : ℚ) (snap draw : Bool) (ls : Option (List PyLabel)) (ha : Option String) :
    default_labels (smallCfg v snap draw ls ha) = [.float 0, .float 10] := by
  norm_num [default_labels, linspace, nSegs, smallCfg, List.range_succ, List.range_zero]

theorem twoCfg_mv (v : ℚ) (snap : Bool) : midpoint_values (twoCfg v snap) = [0, 10] := by
  norm_num [midpoint_values, linspace, nSegs, twoCfg, List.range_succ, List.range_zero]

theorem twoCfg_ev (v : ℚ) (snap : Bool) : edge_values (twoCfg v snap) = [0, 5, 10] := by
  norm_num [edge_values, linspace, nSegs, twoCfg, List.range_succ, List.range_zero]

theorem twoCfg_ar (v : ℚ) (snap : Bool) :
    angle_range (twoCfg v snap) = [(-30, 90), (90, 210)] := by
  norm_num [angle_range, degree_range, linspace, nSegs, twoCfg, List.range_succ, List.range_zero]

theorem twoCfg_mid (v : ℚ) (snap : Bool) : midpoints (twoCfg v snap) = [30, 150] := by
  norm_num [midpoints, degree_range, linspace, nSegs, twoCfg, List.range_succ, List.range_zero]

theorem twoCfg_ce (v : ℚ) (snap : Bool) : colors_expanded (twoCfg v snap) = ["a", "b"] := by
  norm_num [colors_expanded, twoCfg]

theorem spcCfg_mv (v : ℚ) : midpoint_values (spcCfg v) = [0, 10] := by
  norm_num [midpoint_values, linspace, nSegs, spcCfg, List.range_succ, List.range_zero]

theorem spcCfg_ev (v : ℚ) : edge_values (spcCfg v) = [0, 5, 10] := by
  norm_num [edge_values, linspace, nSegs, spcCfg, List.range_succ, List.range_zero]

theorem spcCfg_ar (v : ℚ) : angle_range (spcCfg v) = [(-30, 90), (90, 210)] := by
  norm_num [angle_range, degree_range, linspace, nSegs, spcCfg, List.range_succ, List.range_zero]

theorem spcCfg_ce (v : ℚ) : colors_expanded (spcCfg v) = ["a", "a"] := by
  norm_num [colors_expanded, spcCfg, List.replicate_succ]

theorem degCfg_mv (snap : Bool) : midpoint_values (degCfg snap) = [5] := by
  norm_num [midpoint_values, linspace, nSegs, degCfg, List.range_succ, List.range_zero]

theorem degCfg_ev (snap : Bool) : edge_values (degCfg snap) = [5, 5] := by
  norm_num [edge_values, linspace, nSegs, degCfg, List.range_succ, List.range_zero]

theorem degCfg_ar (snap : Bool) : angle_range (degCfg snap) = [(-30, 210)] := by
  norm_num [angle_range, degree_range, linspace, nSegs, degCfg, List.range_succ, List.range_zero]

theorem degCfg_mid (snap : Bool) : midpoints (degCfg snap) = [90] := by
  norm_num [midpoints, degree_range, linspace, nSegs, degCfg, List.range_succ, List.range_zero]

theorem degCfg_ce (snap : Bool) : colors_expanded (degCfg snap) = ["a"] := by
  norm_num [colors_expanded, degCfg]

/-! ## The concrete construction and update outcomes -/

theorem init_cfgCont : Speedometer.init cfgCont [] = .ok stateCont := by
  have hidx : arrow_index cfgCont cfgCont.value = 0 := by
    show argmin ((midpoint_values cfgCont).map (fun m => |m - cfgCont.value|)) = 0
    rw [cfgCont_mv]
    rfl
  have hav : arrow_value cfgCont cfgCont.value = 0 := by
    show (midpoint_values cfgCont).getD (arrow_index cfgCont cfgCont.value) 0 = 0
    rw [cfgCont_mv, hidx]
    rfl
  have hne : midpoint_values cfgCont ≠ [] := by rw [cfgCont_mv]; simp
  have ha : set_arrow_angle cfgCont cfgCont.value (arrow_index cfgCont cfgCont.value) = .ok 90 := by
    rw [set_arrow_angle_cont cfgCont _ _ rfl (by norm_num [cfgCont])]
    norm_num [cfgCont]
  have hbp : build_patches cfgCont 0 =
      [⟨-30, 210, some "#d7191c", 1/4, none⟩, ⟨-30, 210, none, 1, none⟩] := by
    rw [build_patches_eq_flatMap, cfgCont_ar, cfgCont_ce, cfgCont_ev]
    norm_num [styled_wedge, outline_wedge, cfgCont]
  rw [Speedometer.init_eq_ok cfgCont [] [] 90 hne rfl ha, hav, hidx, hbp]
  rfl

theorem init_cfgEq :
    Speedometer.init (smallCfg 0 false false none (some "xx")) [] = .ok stateEq := by
  have hidx : arrow_index (smallCfg 0 false false none (some "xx"))
      (smallCfg 0 false false none (some "xx")).value = 0 := by
    show argmin ((midpoint_values _).map _) = 0
    rw [smallCfg_mv]
    rfl
  have hav : arrow_value (smallCfg 0 false false none (some "xx"))
      (smallCfg 0 false false none (some "xx")).value = 0 := by
    show (midpoint_values _).getD (arrow_index _ _) 0 = 0
    rw [smallCfg_mv, hidx]
    rfl
  have hne : midpoint_values (smallCfg 0 false false none (some "xx")) ≠ [] := by
    rw [smallCfg_mv]
    simp
  have ha : set_arrow_angle (smallCfg 0 false false none (some "xx"))
      (smallCfg 0 false false none (some "xx")).value
      (arrow_index (smallCfg 0 false false none (some "xx"))
        (smallCfg 0 false false none (some "xx")).value) = .ok 210 := by
    rw [set_arrow_angle_cont _ _ _ rfl (by norm_num [smallCfg])]
    norm_num [smallCfg]
  have hbp : build_patches (smallCfg 0 false false none (some "xx")) 0 =
      [⟨-30, 210, some "a", 1/4, some "xx"⟩, ⟨-30, 210, none, 1, none⟩] := by
    rw [build_patches_eq_flatMap, smallCfg_ar, smallCfg_ce, smallCfg_ev]
    norm_num [styled_wedge, outline_wedge, smallCfg]
  rw [Speedometer.init_eq_ok _ [] [] 210 hne rfl ha, hav, hidx, hbp]
  rfl

theorem init_twoCfg10 : Speedometer.init (twoCfg 10 false) [] = .ok stateStrict := by
  have hmap : (midpoint_values (twoCfg 10 false)).map
      (fun m => |m - (twoCfg 10 false).value|) = [10, 0] := by
    rw [twoCfg_mv]
    norm_num [twoCfg]
  have hidx : arrow_index (twoCfg 10 false) (twoCfg 10 false).value = 1 := by
    show argmin ((midpoint_values _).map _) = 1
    rw [hmap, argmin_cons_cons]
    norm_num [argmin]
  have hav : arrow_value (twoCfg 10 false) (twoCfg 10 false).value = 10 := by
    show (midpoint_values _).getD (arrow_index _ _) 0 = 10
    rw [twoCfg_mv, hidx]
    rfl
  have hne : midpoint_values (twoCfg 10 false) ≠ [] := by
    rw [twoCfg_mv]
    simp
  have ha : set_arrow_angle (twoCfg 10 false) (twoCfg 10 false).value
      (arrow_index (twoCfg 10 false) (twoCfg 10 false).value) = .ok (-30) := by
    rw [set_arrow_angle_cont _ _ _ rfl (by norm_num [twoCfg])]
    norm_num [twoCfg]
  have hbp : build_patches (twoCfg 10 false) 10 =
      [⟨-30, 90, some "a", 1, none⟩, ⟨-30, 90, none, 1, none⟩,
       ⟨90, 210, some "b", 1, none⟩, ⟨90, 210, none, 1, none⟩] := by
    rw [build_patches_eq_flatMap, twoCfg_ar, twoCfg_ce, twoCfg_ev]
    norm_num [styled_wedge, outline_wedge, twoCfg]
  rw [Speedometer.init_eq_ok _ [] [] (-30) hne rfl ha, hav, hidx, hbp]
  rfl

theorem init_spcCfg0 : Speedometer.init (spcCfg 0) [] = .ok state3 := by
  have hmap : (midpoint_values (spcCfg 0)).map (fun m => |m - (spcCfg 0).value|) = [0, 10] := by
    rw [spcCfg_mv]
    norm_num [spcCfg]
  have hidx : arrow_index (spcCfg 0) (spcCfg 0).value = 0 := by
    show argmin ((midpoint_values _).map _) = 0
    rw [hmap, argmin_cons_cons]
    norm_num [argmin]
  have hav : arrow_value (spcCfg 0) (spcCfg 0).value = 0 := by
    show (midpoint_values _).getD (arrow_index _ _) 0 = 0
    rw [spcCfg_mv, hidx]
    rfl
  have hne : midpoint_values (spcCfg 0) ≠ [] := by
    rw [spcCfg_mv]
    simp
  have ha : set_arrow_angle (spcCfg 0) (spcCfg 0).value
      (arrow_index (spcCfg 0) (spcCfg 0).value) = .ok 210 := by
    rw [set_arrow_angle_cont _ _ _ rfl (by norm_num [spcCfg])]
    norm_num [spcCfg]
  have hbp : build_patches (spcCfg 0) 0 =
      [⟨-30, 90, some "a", 1/4, none⟩, ⟨-30, 90, none, 1, none⟩,
       ⟨90, 210, some "a", 1/4, none⟩, ⟨90, 210, none, 1, none⟩] := by
    rw [build_patches_eq_flatMap, spcCfg_ar, spcCfg_ce, spcCfg_ev]
    norm_num [styled_wedge, outline_wedge, spcCfg]
  rw [Speedometer.init_eq_ok _ [] [] 210 hne rfl ha, hav, hidx, hbp]
  rfl

theorem spcCfg_idx4 : arrow_index (spcCfg 0) 4 = 0 := by
  have hmap : (midpoint_values (spcCfg 0)).map (fun m => |m - 4|) = [4, 6] := by
    rw [spcCfg_mv]
    norm_num
  show argmin ((midpoint_values _).map _) = 0
  rw [hmap, argmin_cons_cons]
  norm_num [argmin]

theorem spcCfg_av4 : arrow_value (spcCfg 0) 4 = 0 := by
  show (midpoint_values _).getD (arrow_index _ _) 0 = 0
  rw [spcCfg_mv, spcCfg_idx4]
  rfl

theorem spcCfg_bp0 : build_patches (spcCfg 0) 0 =
    [⟨-30, 90, some "a", 1/4, none⟩, ⟨-30, 90, none, 1, none⟩,
     ⟨90, 210, some "a", 1/4, none⟩, ⟨90, 210, none, 1, none⟩] := by
  rw [build_patches_eq_flatMap, spcCfg_ar, spcCfg_ce, spcCfg_ev]
  norm_num [styled_wedge, outline_wedge, spcCfg]

theorem upd_spcCfg0 : Speedometer.update_arrow_position (spcCfg 0) 4 state3 = .ok state3u := by
  have hmap : (midpoint_values (spcCfg 0)).map (fun m => |m - 4|) = [4, 6] := by
    rw [spcCfg_mv]
    norm_num
  have hidx : arrow_index (spcCfg 0) 4 = 0 := by
    show argmin ((midpoint_values _).map _) = 0
    rw [hmap, argmin_cons_cons]
    norm_num [argmin]
  have hav : arrow_value (spcCfg 0) 4 = 0 := by
    show (midpoint_values _).getD (arrow_index _ _) 0 = 0
    rw [spcCfg_mv, hidx]
    rfl
  have hne : midpoint_values (spcCfg 0) ≠ [] := by
    rw [spcCfg_mv]
    simp
  have ha : set_arrow_angle (spcCfg 0) 4 (arrow_index (spcCfg 0) 4) = .ok 114 := by
    rw [set_arrow_angle_cont _ _ _ rfl (by norm_num [spcCfg])]
    norm_num [spcCfg]
  have hw : update_wedges (spcCfg 0) 4 state3.patches = state3u.patches := by
    have h1 : nSegs (spcCfg 0) = 2 := by norm_num [nSegs, spcCfg]
    have h2 : (spcCfg 0).fade_alpha = 1/4 := rfl
    have h3 : (spcCfg 0).fade_hatch = none := rfl
    norm_num [update_wedges, update_wedges_go, restyled, state3, state3u, h1, h2, h3, spcCfg_ev]
  rw [Speedometer.update_eq_ok _ _ _ 114 hne ha, hidx, hav, hw]
  rfl

theorem upd_twoCfgSnap :
    Speedometer.update_arrow_position (twoCfg 0 true) 7 probeState = .ok stateSnap2u := by
  have hmap : (midpoint_values (twoCfg 0 true)).map (fun m => |m - 7|) = [7, 3] := by
    rw [twoCfg_mv]
    norm_num
  have hidx : arrow_index (twoCfg 0 true) 7 = 1 := by
    show argmin ((midpoint_values _).map _) = 1
    rw [hmap, argmin_cons_cons]
    norm_num [argmin]
  have hav : arrow_value (twoCfg 0 true) 7 = 10 := by
    show (midpoint_values _).getD (arrow_index _ _) 0 = 10
    rw [twoCfg_mv, hidx]
    rfl
  have hne : midpoint_values (twoCfg 0 true) ≠ [] := by
    rw [twoCfg_mv]
    simp
  have ha : set_arrow_angle (twoCfg 0 true) 7 (arrow_index (twoCfg 0 true) 7) = .ok 30 := by
    rw [set_arrow_angle_snap _ _ _ rfl (by rw [hidx]; norm_num [nSegs, twoCfg])]
    rw [hidx, twoCfg_mid]
    norm_num [nSegs, twoCfg]
  rw [Speedometer.update_eq_ok _ _ _ 30 hne ha, hidx, hav]
  rfl

theorem init_degSnap : Speedometer.init (degCfg true) [] = .ok stateSnapDeg := by
  have hidx : arrow_index (degCfg true) (degCfg true).value = 0 := by
    show argmin ((midpoint_values _).map _) = 0
    rw [degCfg_mv]
    rfl
  have hav : arrow_value (degCfg true) (degCfg true).value = 5 := by
    show (midpoint_values _).getD (arrow_index _ _) 0 = 5
    rw [degCfg_mv, hidx]
    rfl
  have hne : midpoint_values (degCfg true) ≠ [] := by
    rw [degCfg_mv]
    simp
  have ha : set_arrow_angle (degCfg true) (degCfg true).value
      (arrow_index (degCfg true) (degCfg true).value) = .ok 90 := by
    rw [set_arrow_angle_snap _ _ _ rfl (by rw [hidx]; norm_num [nSegs, degCfg])]
    rw [hidx, degCfg_mid]
    norm_num [nSegs, degCfg]
  have hbp : build_patches (degCfg true) 5 =
      [⟨-30, 210, some "a", 1/4, none⟩, ⟨-30, 210, none, 1, none⟩] := by
    rw [build_patches_eq_flatMap, degCfg_ar, degCfg_ce, degCfg_ev]
    norm_num [styled_wedge, outline_wedge, degCfg]
  rw [Speedometer.init_eq_ok _ [] [] 90 hne rfl ha, hav, hidx, hbp]
  rfl

theorem init_degCont : Speedometer.init (degCfg false) [] = .error Err.zeroDivision := by
  have hne : midpoint_values (degCfg false) ≠ [] := by
    rw [degCfg_mv]
    simp
  exact Speedometer.init_eq_error_angle _ [] [] _ hne rfl
    (set_arrow_angle_zero _ _ _ rfl (by norm_num [degCfg]))

theorem init_cfg10 :
    Speedometer.init (smallCfg 0 false true (some intLabels) none) [] = .ok state10 := by
  have hidx : arrow_index (smallCfg 0 false true (some intLabels) none)
      (smallCfg 0 false true (some intLabels) none).value = 0 := by
    show argmin ((midpoint_values _).map _) = 0
    rw [smallCfg_mv]
    rfl
  have hav : arrow_value (smallCfg 0 false true (some intLabels) none)
      (smallCfg 0 false true (some intLabels) none).value = 0 := by
    show (midpoint_values _).getD (arrow_index _ _) 0 = 0
    rw [smallCfg_mv, hidx]
    rfl
  have hne : midpoint_values (smallCfg 0 false true (some intLabels) none) ≠ [] := by
    rw [smallCfg_mv]
    simp
  have hl : (if (smallCfg 0 false true (some intLabels) none).draw_labels then
      render_labels ((annotation_angles (smallCfg 0 false true (some intLabels) none)).zip
        (((smallCfg 0 false true (some intLabels) none).labels.getD
          (default_labels (smallCfg 0 false true (some intLabels) none))).reverse))
    else .ok []) = .ok [(-30, .str "b"), (210, .str "a")] := by
    show render_labels ((annotation_angles (smallCfg 0 false true (some intLabels) none)).zip
      (intLabels.reverse)) = _
    rw [smallCfg_aa]
    rfl
  have ha : set_arrow_angle (smallCfg 0 false true (some intLabels) none)
      (smallCfg 0 false true (some intLabels) none).value
      (arrow_index (smallCfg 0 false true (some intLabels) none)
        (smallCfg 0 false true (some intLabels) none).value) = .ok 210 := by
    rw [set_arrow_angle_cont _ _ _ rfl (by norm_num [smallCfg])]
    norm_num [smallCfg]
  have hbp : build_patches (smallCfg 0 false true (some intLabels) none) 0 =
      [⟨-30, 210, some "a", 1/4, none⟩, ⟨-30, 210, none, 1, none⟩] := by
    rw [build_patches_eq_flatMap, smallCfg_ar, smallCfg_ce, smallCfg_ev]
    norm_num [styled_wedge, outline_wedge, smallCfg]
  rw [Speedometer.init_eq_ok _ [] [(-30, .str "b"), (210, .str "a")] 210 hne hl ha, hav, hidx, hbp]
  rfl

theorem init_cfg10b :
    Speedometer.init (smallCfg 0 false true (some [.int 5]) none) [] = .error Err.typeError := by
  have hne : midpoint_values (smallCfg 0 false true (some [.int 5]) none) ≠ [] := by
    rw [smallCfg_mv]
    simp
  exact Speedometer.init_eq_error_labels _ [] _ hne rfl

theorem init_cfg10c :
    Speedometer.init (smallCfg 0 false true none none) [] = .ok state10c := by
  have hidx : arrow_index (smallCfg 0 false true none none)
      (smallCfg 0 false true none none).value = 0 := by
    show argmin ((midpoint_values _).map _) = 0
    rw [smallCfg_mv]
    rfl
  have hav : arrow_value (smallCfg 0 false true none none)
      (smallCfg 0 false true none none).value = 0 := by
    show (midpoint_values _).getD (arrow_index _ _) 0 = 0
    rw [smallCfg_mv, hidx]
    rfl
  have hne : midpoint_values (smallCfg 0 false true none none) ≠ [] := by
    rw [smallCfg_mv]
    simp
  have hl : (if (smallCfg 0 false true none none).draw_labels then
      render_labels ((annotation_angles (smallCfg 0 false true none none)).zip
        (((smallCfg 0 false true none none).labels.getD
          (default_labels (smallCfg 0 false true none none))).reverse))
    else .ok []) = .ok [(-30, .float 10), (210, .float 0)] := by
    show render_labels ((annotation_angles (smallCfg 0 false true none none)).zip
      ((default_labels (smallCfg 0 false true none none)).reverse)) = _
    rw [smallCfg_aa, smallCfg_dl]
    rfl
  have ha : set_arrow_angle (smallCfg 0 false true none none)
      (smallCfg 0 false true none none).value
      (arrow_index (smallCfg 0 false true none none)
        (smallCfg 0 false true none none).value) = .ok 210 := by
    rw [set_arrow_angle_cont _ _ _ rfl (by norm_num [smallCfg])]
    norm_num [smallCfg]
  have hbp : build_patches (smallCfg 0 false true none none) 0 =
      [⟨-30, 210, some "a", 1/4, none⟩, ⟨-30, 210, none, 1, none⟩] := by
    rw [build_patches_eq_flatMap, smallCfg_ar, smallCfg_ce, smallCfg_ev]
    norm_num [styled_wedge, outline_wedge, smallCfg]
  rw [Speedometer.init_eq_ok _ [] [(-30, .float 10), (210, .float 0)] 210 hne hl ha, hav, hidx, hbp]
  rfl

/-! ## The claims -/

/-- C8: `update` is idempotent.  For every configuration, value and
post-construction state, in either needle mode, a second
`update_arrow_position(v)` right after a first one reproduces the first
one's outcome exactly: the same `arrow_angle`, the same needle polygon (the
second call rotates by an angle delta of zero) and the same alpha/hatch on
every wedge; and when the first call raises, the repetition raises the same
error. -/
theorem update_idempotent (c : Config) (v : ℚ) (s : SpeedoState) :
    (Speedometer.update_arrow_position c v s).bind (Speedometer.update_arrow_position c v) =
      Speedometer.update_arrow_position c v s := by
  cases h : Speedometer.update_arrow_position c v s with
  | error e => rfl
  | ok t =>
    obtain ⟨hne, ha, hval, hidx, hav, hpat, hlab, hann, hxy⟩ := Speedometer.update_ok c v s t h
    have hxy0 : t.arrow_xy.map (rotatePt (deg2rad ((t.arrow_angle - t.arrow_angle : ℚ) : ℝ))) =
        t.arrow_xy := by
      rw [sub_self]
      have hid : ∀ p ∈ t.arrow_xy, rotatePt (deg2rad ((0 : ℚ) : ℝ)) p = p :=
        fun p _ => rotatePt_zero p
      rw [List.map_congr_left hid, List.map_id']
    have hwge : update_wedges c v t.patches = t.patches := by
      rw [hpat, update_wedges_idem]
    show Speedometer.update_arrow_position c v t = .ok t
    rw [Speedometer.update_eq_ok c v t t.arrow_angle hne ha, hwge, hxy0]
    congr 1
    exact SpeedoState.ext hval.symm hidx.symm hav.symm rfl rfl rfl hann.symm rfl

/-- C9: round trip.  Constructing with `value = v0`, then updating to any
`v1`, then updating back to `v0` restores `arrow_angle` exactly to its
construction-time value (the needle angle depends only on the current
value, in either mode); and when construction fails, the composite fails
too, so both sides carry no angle. -/
theorem update_round_trip (c : Config) (v1 : ℚ) (xy0 : List (ℝ × ℝ)) :
    getAngle ((Speedometer.init c xy0).bind (fun s =>
      (Speedometer.update_arrow_position c v1 s).bind
        (Speedometer.update_arrow_position c c.value))) =
      getAngle (Speedometer.init c xy0) := by
  cases h : Speedometer.init c xy0 with
  | error e => rfl
  | ok s0 =>
    obtain ⟨hne, ha0, -, -, -, -, -, -, -⟩ := Speedometer.init_ok c xy0 s0 h
    have hupd1 : ∃ a1, set_arrow_angle c v1 (arrow_index c v1) = .ok a1 := by
      cases hsnap : c.snap_to_pos with
      | true =>
        refine ⟨_, set_arrow_angle_snap c v1 (arrow_index c v1) hsnap ?_⟩
        have := arrow_index_lt c v1 hne
        rwa [length_midpoint_values] at this
      | false =>
        exact ⟨_, set_arrow_angle_cont c v1 (arrow_index c v1) hsnap
          (set_arrow_angle_cont_ne c c.value (arrow_index c c.value) s0.arrow_angle hsnap ha0)⟩
    obtain ⟨a1, ha1⟩ := hupd1
    show getAngle ((Speedometer.update_arrow_position c v1 s0).bind
      (Speedometer.update_arrow_position c c.value)) = getAngle (.ok s0)
    rw [Speedometer.update_eq_ok c v1 s0 a1 hne ha1]
    show getAngle (Speedometer.update_arrow_position c c.value _) = getAngle (.ok s0)
    rw [Speedometer.update_eq_ok c c.value _ s0.arrow_angle hne ha0]
    rfl

/-- C5: for every `N ≥ 1` and angles `a`, `b`, `degree_range` returns
exactly `N` consecutive breakpoint pairs covering `[a, b]` with no gaps or
overlaps (the first pair starts at `a`, the last ends at `b`, each pair's
end is the next pair's start) and `N` midpoints, the `i`-th being the
average of the `i`-th pair's endpoints. -/
theorem degree_range_partitions (n : ℕ) (a b : ℚ) (hn : 1 ≤ n) :
    (degree_range n a b).1.length = n ∧
    (degree_range n a b).2.length = n ∧
    ((degree_range n a b).1.getD 0 (0, 0)).1 = a ∧
    ((degree_range n a b).1.getD (n - 1) (0, 0)).2 = b ∧
    (∀ i, i + 1 < n →
      ((degree_range n a b).1.getD i (0, 0)).2 =
        ((degree_range n a b).1.getD (i + 1) (0, 0)).1) ∧
    (∀ i, i < n →
      (degree_range n a b).2.getD i 0 =
        (((degree_range n a b).1.getD i (0, 0)).1 +
          ((degree_range n a b).1.getD i (0, 0)).2) / 2) := by
  have hn0 : ((n : ℚ)) ≠ 0 := Nat.cast_ne_zero.mpr (by omega)
  have hcast : ((n + 1 : ℕ) : ℚ) - 1 = (n : ℚ) := by push_cast; ring
  refine ⟨length_degree_range_fst n a b, length_degree_range_snd n a b, ?_, ?_, ?_, ?_⟩
  · rw [degree_range_fst_getD n a b (by omega)]
    rw [linspace_getD a b (by omega)]
    simp
  · rw [degree_range_fst_getD n a b (by omega : n - 1 < n)]
    have hsucc : n - 1 + 1 = n := by omega
    rw [hsucc, linspace_getD a b (by omega : n < n + 1), hcast]
    show a + (n : ℚ) * (b - a) / (n : ℚ) = b
    rw [mul_div_cancel_left₀ _ hn0]
    ring
  · intro i hi
    rw [degree_range_fst_getD n a b (by omega : i < n),
      degree_range_fst_getD n a b (by omega : i + 1 < n)]
  · intro i hi
    rw [degree_range_snd_getD n a b hi]
    ring

/-- C1: in continuous mode (snap_to_pos false) with a non-degenerate value
range, the needle angle computed at construction and by update(value)
equals `end_angle - (value - start_value) / (end_value - start_value) *
(end_angle - start_angle)`, with no clamping of out-of-domain values; in
particular with start_value 0, end_value 200, start_angle -30, end_angle
210, update(250) yields arrow_angle -90, strictly below start_angle. -/
theorem continuous_needle_angle :
    (∀ (c : Config) (xy0 : List (ℝ × ℝ)) (s : SpeedoState),
      c.snap_to_pos = false → c.end_value ≠ c.start_value →
      Speedometer.init c xy0 = .ok s → s.arrow_angle = value_to_angle c c.value) ∧
    (∀ (c : Config) (v : ℚ) (s t : SpeedoState),
      c.snap_to_pos = false → c.end_value ≠ c.start_value →
      Speedometer.update_arrow_position c v s = .ok t → t.arrow_angle = value_to_angle c v) ∧
    getAngle (Speedometer.update_arrow_position cfgCont 250 probeState) = some (-90) ∧
    (-90 : ℚ) < cfgCont.start_angle := by
  have hsub : ∀ c : Config, c.end_value ≠ c.start_value → c.end_value - c.start_value ≠ 0 :=
    fun c h => sub_ne_zero.mpr h
  refine ⟨?_, ?_, ?_, by norm_num [cfgCont]⟩
  · intro c xy0 s hsnap hev h
    obtain ⟨-, ha, -, -, -, -, -, -, -⟩ := Speedometer.init_ok c xy0 s h
    rw [set_arrow_angle_cont c c.value _ hsnap (hsub c hev)] at ha
    injection ha with ha'
    exact ha'.symm
  · intro c v s t hsnap hev h
    obtain ⟨-, ha, -, -, -, -, -, -, -⟩ := Speedometer.update_ok c v s t h
    rw [set_arrow_angle_cont c v _ hsnap (hsub c hev)] at ha
    injection ha with ha'
    exact ha'.symm
  · have hne : midpoint_values cfgCont ≠ [] := by
      rw [cfgCont_mv]
      simp
    have ha : set_arrow_angle cfgCont 250 (arrow_index cfgCont 250) = .ok (-90) := by
      rw [set_arrow_angle_cont _ _ _ rfl (by norm_num [cfgCont])]
      norm_num [cfgCont]
    rw [Speedometer.update_eq_ok _ _ _ (-90) hne ha]
    rfl

/-- Witness for C1 at the fixture configuration `cfgCont`. -/
theorem continuous_needle_angle_witness :
    cfgCont.snap_to_pos = false ∧ cfgCont.end_value ≠ cfgCont.start_value ∧
    Speedometer.init cfgCont [] = .ok stateCont ∧
    stateCont.arrow_angle = value_to_angle cfgCont cfgCont.value :=
  ⟨rfl, by norm_num [cfgCont], init_cfgCont,
    continuous_needle_angle.1 cfgCont [] stateCont rfl (by norm_num [cfgCont]) init_cfgCont⟩

/-- C2 counterexample: with one segment over `[0, 10]` and value 0, the
wedge's boundary value 0 equals `arrow_value`; the claim then demands a
solid wedge (alpha 1, no hatch) but construction fades it (alpha 1/4,
hatch "xx"): the equality case renders faded, not solid. -/
theorem fade_boundary_equality_cx :
    Speedometer.init (smallCfg 0 false false none (some "xx")) [] = .ok stateEq ∧
    (edge_values (smallCfg 0 false false none (some "xx"))).getD
      (nSegs (smallCfg 0 false false none (some "xx")) - 1 - 0) 0 ≤ stateEq.arrow_value ∧
    ¬ ((stateEq.patches.getD (2 * 0) ⟨0, 0, none, 0, none⟩).alpha = 1 ∧
       (stateEq.patches.getD (2 * 0) ⟨0, 0, none, 0, none⟩).hatch = none) := by
  refine ⟨init_cfgEq, ?_, ?_⟩
  · rw [smallCfg_ev]
    norm_num [nSegs, smallCfg, stateEq]
  · norm_num [stateEq]

/-- C2 (amended): at construction, the wedge of segment `j` (in angular
order) is solid (alpha 1, no hatch) exactly when its boundary value
`edge_values[N-1-j]` is strictly less than `arrow_value`, and faded
(alpha = fade_alpha, hatch = fade_hatch) when the boundary is greater
than or equal to `arrow_value` - the equality case renders faded. -/
theorem fade_rule_strict (c : Config) (xy0 : List (ℝ × ℝ)) (s : SpeedoState) (j : ℕ)
    (hj : j < nSegs c) (h : Speedometer.init c xy0 = .ok s) :
    ((edge_values c).getD (nSegs c - 1 - j) 0 < s.arrow_value →
      (s.patches.getD (2 * j) ⟨0, 0, none, 0, none⟩).alpha = 1 ∧
      (s.patches.getD (2 * j) ⟨0, 0, none, 0, none⟩).hatch = none) ∧
    (s.arrow_value ≤ (edge_values c).getD (nSegs c - 1 - j) 0 →
      (s.patches.getD (2 * j) ⟨0, 0, none, 0, none⟩).alpha = c.fade_alpha ∧
      (s.patches.getD (2 * j) ⟨0, 0, none, 0, none⟩).hatch = c.fade_hatch) := by
  obtain ⟨-, -, -, -, hav, hpat, -, -, -⟩ := Speedometer.init_ok c xy0 s h
  rw [hav, hpat, (build_patches_getD c (arrow_value c c.value) j hj).1]
  unfold styled_wedge
  rw [build_zip_getD_snd c j hj]
  constructor
  · intro hlt
    rw [if_neg (not_le_of_lt hlt)]
    exact ⟨rfl, rfl⟩
  · intro hle
    rw [if_pos hle]
    exact ⟨rfl, rfl⟩

/-- Witness for C2 (amended) at `twoCfg 10 false`: segment 0's boundary 5
lies strictly below arrow_value 10 and the wedge is solid. -/
theorem fade_rule_strict_witness :
    0 < nSegs (twoCfg 10 false) ∧
    Speedometer.init (twoCfg 10 false) [] = .ok stateStrict ∧
    (((edge_values (twoCfg 10 false)).getD (nSegs (twoCfg 10 false) - 1 - 0) 0 <
        stateStrict.arrow_value →
      (stateStrict.patches.getD (2 * 0) ⟨0, 0, none, 0, none⟩).alpha = 1 ∧
      (stateStrict.patches.getD (2 * 0) ⟨0, 0, none, 0, none⟩).hatch = none) ∧
     (stateStrict.arrow_value ≤ (edge_values (twoCfg 10 false)).getD
        (nSegs (twoCfg 10 false) - 1 - 0) 0 →
      (stateStrict.patches.getD (2 * 0) ⟨0, 0, none, 0, none⟩).alpha =
        (twoCfg 10 false).fade_alpha ∧
      (stateStrict.patches.getD (2 * 0) ⟨0, 0, none, 0, none⟩).hatch =
        (twoCfg 10 false).fade_hatch)) :=
  ⟨by norm_num [nSegs, twoCfg], init_twoCfg10,
    fade_rule_strict (twoCfg 10 false) [] stateStrict 0 (by norm_num [nSegs, twoCfg])
      init_twoCfg10⟩

/-- C3 counterexample: for `spcCfg 0` (two segments over `[0, 10]`),
`update(4)` styles the low segment solid (alpha 1) while construction's
`build_segments` fade rule evaluated against the new `arrow_value` (which
snaps to 0) would fade it (alpha 1/4): update compares boundaries against
the raw value, not against `arrow_value`. -/
theorem update_styling_cx :
    Speedometer.update_arrow_position (spcCfg 0) 4 state3 = .ok state3u ∧
    arrow_value (spcCfg 0) 4 = 0 ∧
    (state3u.patches.getD (2 * 1) ⟨0, 0, none, 0, none⟩).alpha = 1 ∧
    ((build_patches (spcCfg 0) (arrow_value (spcCfg 0) 4)).getD (2 * 1)
      ⟨0, 0, none, 0, none⟩).alpha = 1 / 4 ∧
    (1 : ℚ) ≠ 1 / 4 := by
  refine ⟨upd_spcCfg0, spcCfg_av4, by norm_num [state3u], ?_, by norm_num⟩
  rw [spcCfg_av4, spcCfg_bp0]
  norm_num

/-- C3 (amended): the styling `update(new_value)` gives the styled wedge of
each segment equals the styling construction's `build_segments` fade rule
would assign with the raw `new_value` in place of the snapped
`arrow_value`: same alpha and same hatch as `build_patches c new_value`
(the two coincide whenever `new_value` equals its nearest midpoint
value). -/
theorem update_styling_rule (c : Config) (v : ℚ) (s t : SpeedoState) (j : ℕ)
    (hj : j < nSegs c) (hlen : s.patches.length = 2 * nSegs c)
    (hupd : Speedometer.update_arrow_position c v s = .ok t) :
    (t.patches.getD (2 * j) ⟨0, 0, none, 0, none⟩).alpha =
      ((build_patches c v).getD (2 * j) ⟨0, 0, none, 0, none⟩).alpha ∧
    (t.patches.getD (2 * j) ⟨0, 0, none, 0, none⟩).hatch =
      ((build_patches c v).getD (2 * j) ⟨0, 0, none, 0, none⟩).hatch := by
  obtain ⟨-, -, -, -, -, hpat, -, -, -⟩ := Speedometer.update_ok c v s t hupd
  have hm : 2 * j < s.patches.length := by omega
  rw [hpat, update_wedges_getD c v _ s.patches (2 * j) hm,
    (build_patches_getD c v j hj).1]
  unfold restyled styled_wedge
  rw [build_zip_getD_snd c j hj]
  have hk2 : (2 * j) % 2 = 0 := by omega
  have hk2' : 2 * j / 2 = j := by omega
  rw [if_pos hk2, hk2']
  by_cases hlt : (edge_values c).getD (nSegs c - 1 - j) 0 < v
  · rw [if_pos hlt, if_neg (not_le_of_lt hlt)]
    exact ⟨rfl, rfl⟩
  · rw [if_neg hlt, if_pos (le_of_not_lt hlt)]
    exact ⟨rfl, rfl⟩

/-- Witness for C3 (amended) at `spcCfg 0`, `update(4)`, segment 1. -/
theorem update_styling_rule_witness :
    1 < nSegs (spcCfg 0) ∧
    state3.patches.length = 2 * nSegs (spcCfg 0) ∧
    Speedometer.update_arrow_position (spcCfg 0) 4 state3 = .ok state3u ∧
    ((state3u.patches.getD (2 * 1) ⟨0, 0, none, 0, none⟩).alpha =
      ((build_patches (spcCfg 0) 4).getD (2 * 1) ⟨0, 0, none, 0, none⟩).alpha ∧
     (state3u.patches.getD (2 * 1) ⟨0, 0, none, 0, none⟩).hatch =
      ((build_patches (spcCfg 0) 4).getD (2 * 1) ⟨0, 0, none, 0, none⟩).hatch) :=
  ⟨by norm_num [nSegs, spcCfg], by norm_num [state3, nSegs, spcCfg], upd_spcCfg0,
    update_styling_rule (spcCfg 0) 4 state3 state3u 1 (by norm_num [nSegs, spcCfg])
      (by norm_num [state3, nSegs, spcCfg]) upd_spcCfg0⟩

/-- C4 (code bug): with `start_value = end_value` the code raises no
DomainError at all: snap-mode construction completes successfully, and
continuous-mode construction raises a bare ZeroDivisionError from the
interpolation rather than a dedicated domain error. -/
theorem degenerate_domain_no_domain_error :
    Speedometer.init (degCfg true) [] = .ok stateSnapDeg ∧
    (Speedometer.init (degCfg true) []).isOk = true ∧
    Speedometer.init (degCfg false) [] = .error Err.zeroDivision :=
  ⟨init_degSnap, by rw [init_degSnap]; rfl, init_degCont⟩

/-- C6: in snap mode the needle angle is `midpoints[N - 1 - i]` where `i`
is the index minimising `|midpoint_values[i] - value|` with ties broken by
the lowest index (standard argmin), both at construction and on update:
the needle points at the angular midpoint of the nearest segment, index
reversed because the angular sweep runs opposite to the value sweep. -/
theorem snap_needle_angle :
    (∀ (c : Config) (xy0 : List (ℝ × ℝ)) (s : SpeedoState) (i : ℕ),
      c.snap_to_pos = true →
      isArgmin ((midpoint_values c).map (fun m => |m - c.value|)) i →
      Speedometer.init c xy0 = .ok s →
      s.arrow_angle = (midpoints c).getD (nSegs c - 1 - i) 0) ∧
    (∀ (c : Config) (v : ℚ) (s t : SpeedoState) (i : ℕ),
      c.snap_to_pos = true →
      isArgmin ((midpoint_values c).map (fun m => |m - v|)) i →
      Speedometer.update_arrow_position c v s = .ok t →
      t.arrow_angle = (midpoints c).getD (nSegs c - 1 - i) 0) := by
  have key : ∀ (c : Config) (v : ℚ) (i : ℕ) (a : ℚ),
      c.snap_to_pos = true →
      isArgmin ((midpoint_values c).map (fun m => |m - v|)) i →
      set_arrow_angle c v (arrow_index c v) = .ok a →
      a = (midpoints c).getD (nSegs c - 1 - i) 0 := by
    intro c v i a hsnap hi ha
    have hieq : i = arrow_index c v := isArgmin_eq_argmin _ i hi
    have hlt : i < nSegs c := by
      have h1 := hi.1
      rwa [List.length_map, length_midpoint_values] at h1
    rw [← hieq] at ha
    rw [set_arrow_angle_snap c v i hsnap hlt] at ha
    injection ha with ha'
    exact ha'.symm
  constructor
  · intro c xy0 s i hsnap hi h
    obtain ⟨-, ha, -, -, -, -, -, -, -⟩ := Speedometer.init_ok c xy0 s h
    exact key c c.value i s.arrow_angle hsnap hi ha
  · intro c v s t i hsnap hi h
    obtain ⟨-, ha, -, -, -, -, -, -, -⟩ := Speedometer.update_ok c v s t h
    exact key c v i t.arrow_angle hsnap hi ha

/-- Witness for C6: snapping to value 7 over two segments of `[0, 10]`
lands on index 1 and angle `midpoints[0] = 30`. -/
theorem snap_needle_angle_witness :
    (twoCfg 0 true).snap_to_pos = true ∧
    isArgmin ((midpoint_values (twoCfg 0 true)).map (fun m => |m - 7|)) 1 ∧
    Speedometer.update_arrow_position (twoCfg 0 true) 7 probeState = .ok stateSnap2u ∧
    stateSnap2u.arrow_angle =
      (midpoints (twoCfg 0 true)).getD (nSegs (twoCfg 0 true) - 1 - 1) 0 := by
  have hargm : isArgmin ((midpoint_values (twoCfg 0 true)).map (fun m => |m - 7|)) 1 := by
    have hmap : (midpoint_values (twoCfg 0 true)).map (fun m => |m - 7|) = [7, 3] := by
      rw [twoCfg_mv]
      norm_num
    rw [hmap]
    refine ⟨by norm_num, ?_, ?_⟩
    · intro k hk
      simp only [List.length_cons, List.length_nil] at hk
      interval_cases k <;> norm_num
    · intro k hk
      interval_cases k
      norm_num
  exact ⟨rfl, hargm, upd_twoCfgSnap,
    snap_needle_angle.2 (twoCfg 0 true) 7 probeState stateSnap2u 1 rfl hargm upd_twoCfgSnap⟩

/-- C7: for every valid configuration (non-empty colors, at least one
segment per color), with `N = segments_per_color * len(colors)`: the
expanded color list, `angle_range`, `midpoints` and `midpoint_values` have
length `N`; `edge_values` and `annotation_angles` have length `N + 1`; and
construction draws exactly `N` wedge pairs, i.e. `2 N` wedge primitives. -/
theorem segment_count_invariants (c : Config) (xy0 : List (ℝ × ℝ)) (s : SpeedoState)
    (hc : c.colors ≠ []) (hs : 1 ≤ c.segments_per_color) :
    (colors_expanded c).length = nSegs c ∧
    (angle_range c).length = nSegs c ∧
    (midpoints c).length = nSegs c ∧
    (midpoint_values c).length = nSegs c ∧
    (edge_values c).length = nSegs c + 1 ∧
    (annotation_angles c).length = nSegs c + 1 ∧
    (Speedometer.init c xy0 = .ok s → s.patches.length = 2 * nSegs c) := by
  have hlen : 0 < c.colors.length := List.length_pos.mpr hc
  have hN : 1 ≤ nSegs c := Nat.mul_pos hs hlen
  refine ⟨length_colors_expanded c, length_angle_range c, length_midpoints c,
    length_midpoint_values c, length_edge_values c, ?_, ?_⟩
  · unfold annotation_angles
    have hlar : (angle_range c).length = nSegs c := length_angle_range c
    have hne : angle_range c ≠ [] := by
      intro h0
      rw [h0] at hlar
      simp at hlar
      omega
    cases hlast : (angle_range c).getLast? with
    | none => exact absurd (List.getLast?_eq_none_iff.mp hlast) hne
    | some p =>
      simp [hlar]
  · intro h
    obtain ⟨-, -, -, -, -, hpat, -, -, -⟩ := Speedometer.init_ok c xy0 s h
    rw [hpat, length_build_patches]

/-- Witness for C7 at `twoCfg 10 false` (N = 2). -/
theorem segment_count_invariants_witness :
    (twoCfg 10 false).colors ≠ [] ∧ 1 ≤ (twoCfg 10 false).segments_per_color ∧
    Speedometer.init (twoCfg 10 false) [] = .ok stateStrict ∧
    ((colors_expanded (twoCfg 10 false)).length = nSegs (twoCfg 10 false) ∧
     (angle_range (twoCfg 10 false)).length = nSegs (twoCfg 10 false) ∧
     (midpoints (twoCfg 10 false)).length = nSegs (twoCfg 10 false) ∧
     (midpoint_values (twoCfg 10 false)).length = nSegs (twoCfg 10 false) ∧
     (edge_values (twoCfg 10 false)).length = nSegs (twoCfg 10 false) + 1 ∧
     (annotation_angles (twoCfg 10 false)).length = nSegs (twoCfg 10 false) + 1 ∧
     (Speedometer.init (twoCfg 10 false) [] = .ok stateStrict →
       stateStrict.patches.length = 2 * nSegs (twoCfg 10 false))) :=
  ⟨by simp [twoCfg], by norm_num [twoCfg], init_twoCfg10,
    segment_count_invariants (twoCfg 10 false) [] stateStrict (by simp [twoCfg])
      (by norm_num [twoCfg])⟩

/-- C10 counterexample: the custom label list `[int 5, "a", "b"]` has an
entry of Python type int, yet construction succeeds: the three labels are
reversed and zipped against only the two annotation angles, so the int at
index 0 is never iterated and the subscripting TypeError never fires. -/
theorem label_int_unreached_cx :
    (∃ l ∈ intLabels, l.isInt = true) ∧
    (smallCfg 0 false true (some intLabels) none).draw_labels = true ∧
    Speedometer.init (smallCfg 0 false true (some intLabels) none) [] = .ok state10 :=
  ⟨⟨.int 5, by simp [intLabels], rfl⟩, rfl, init_cfg10⟩

/-- C10 (amended): with draw_labels enabled, a custom label list raises a
TypeError exactly when an int entry is among the labels actually iterated:
those of the reversed list that the zip against the `N + 1` annotation
angles reaches (an int beyond that window is never touched).  With the
default labels (labels = None) the int branch is unreachable: construction
never raises a TypeError, and the generated float labels (the boundary
values, trailing `.0` and all) are drawn verbatim, never stripped. -/
theorem label_type_error_behavior (c : Config) (xy0 : List (ℝ × ℝ)) :
    (∀ ls, c.draw_labels = true → c.labels = some ls → midpoint_values c ≠ [] →
      (∃ p ∈ (annotation_angles c).zip ls.reverse, p.2.isInt = true) →
      Speedometer.init c xy0 = .error Err.typeError) ∧
    (c.labels = none →
      Speedometer.init c xy0 ≠ .error Err.typeError ∧
      (∀ s, Speedometer.init c xy0 = .ok s →
        s.label_texts = if c.draw_labels then
          (annotation_angles c).zip (default_labels c).reverse else [])) := by
  constructor
  · intro ls hdl hls hne hex
    apply Speedometer.init_eq_error_labels c xy0 _ hne
    rw [hdl, if_pos rfl, hls]
    show render_labels ((annotation_angles c).zip ls.reverse) = _
    exact render_labels_error_of_int _ hex
  · intro hnone
    have hok : render_labels ((annotation_angles c).zip (default_labels c).reverse) =
        .ok ((annotation_angles c).zip (default_labels c).reverse) := by
      apply render_labels_ok_of_no_int
      intro p hp
      exact default_labels_not_int c p.2 (List.mem_reverse.mp (List.of_mem_zip hp).2)
    constructor
    · intro hbad
      unfold Speedometer.init at hbad
      split at hbad
      · simp at hbad
      · split at hbad
        next e heq =>
          injection hbad with h'
          subst h'
          rw [hnone, Option.getD_none] at heq
          by_cases hdl : c.draw_labels
          · rw [if_pos hdl, hok] at heq
            cases heq
          · rw [if_neg hdl] at heq
            cases heq
        next texts heq =>
          split at hbad
          next e heq2 =>
            injection hbad with h'
            subst h'
            exact (set_arrow_angle_error_ne_typeError _ _ _ _ heq2) rfl
          next a heq2 => cases hbad
    · intro s hs
      obtain ⟨-, -, -, -, -, -, hlab, -, -⟩ := Speedometer.init_ok c xy0 s hs
      rw [hnone, Option.getD_none] at hlab
      by_cases hdl : c.draw_labels
      · rw [if_pos hdl, hok] at hlab
        injection hlab with h'
        rw [if_pos hdl, ← h']
      · rw [if_neg hdl] at hlab
        injection hlab with h'
        rw [if_neg hdl, ← h']

/-- Witness for C10 (amended): `[int 5]` zipped inside the window raises
the TypeError, while default labels construct fine with verbatim float
label texts. -/
theorem label_type_error_behavior_witness :
    ((smallCfg 0 false true (some [.int 5]) none).draw_labels = true ∧
     (smallCfg 0 false true (some [.int 5]) none).labels = some [PyLabel.int 5] ∧
     midpoint_values (smallCfg 0 false true (some [.int 5]) none) ≠ [] ∧
     (∃ p ∈ (annotation_angles (smallCfg 0 false true (some [.int 5]) none)).zip
        ([PyLabel.int 5].reverse), p.2.isInt = true) ∧
     Speedometer.init (smallCfg 0 false true (some [.int 5]) none) [] =
       .error Err.typeError) ∧
    ((smallCfg 0 false true none none).labels = none ∧
     Speedometer.init (smallCfg 0 false true none none) [] ≠ .error Err.typeError ∧
     Speedometer.init (smallCfg 0 false true none none) [] = .ok state10c ∧
     state10c.label_texts = (if (smallCfg 0 false true none none).draw_labels then
       (annotation_angles (smallCfg 0 false true none none)).zip
         (default_labels (smallCfg 0 false true none none)).reverse else [])) := by
  have hne : midpoint_values (smallCfg 0 false true (some [.int 5]) none) ≠ [] := by
    rw [smallCfg_mv]
    simp
  have hex : ∃ p ∈ (annotation_angles (smallCfg 0 false true (some [.int 5]) none)).zip
      ([PyLabel.int 5].reverse), p.2.isInt = true := by
    rw [smallCfg_aa]
    exact ⟨(-30, .int 5), by simp, rfl⟩
  refine ⟨⟨rfl, rfl, hne, hex, ?_⟩, rfl, ?_, init_cfg10c, ?_⟩
  · exact (label_type_error_behavior _ []).1 [.int 5] rfl rfl hne hex
  · exact ((label_type_error_behavior _ []).2 rfl).1
  · exact ((label_type_error_behavior _ []).2 rfl).2 state10c init_cfg10c

/-- Witness for C5: the partition of `[0, 1]` into two halves. -/
theorem degree_range_partitions_witness :
    1 ≤ 2 ∧
    ((degree_range 2 0 1).1.length = 2 ∧
     (degree_range 2 0 1).2.length = 2 ∧
     ((degree_range 2 0 1).1.getD 0 (0, 0)).1 = 0 ∧
     ((degree_range 2 0 1).1.getD (2 - 1) (0, 0)).2 = 1 ∧
     (∀ i, i + 1 < 2 →
       ((degree_range 2 0 1).1.getD i (0, 0)).2 =
         ((degree_range 2 0 1).1.getD (i + 1) (0, 0)).1) ∧
     (∀ i, i < 2 →
       (degree_range 2 0 1).2.getD i 0 =
         (((degree_range 2 0 1).1.getD i (0, 0)).1 +
           ((degree_range 2 0 1).1.getD i (0, 0)).2) / 2)) :=
  ⟨by decide, degree_range_partitions 2 0 1 (by decide)⟩

end Speedo
